import Mathlib

/-!
Verification development for the groq-dvm job-processing engine.

The repository stores several historical revisions of each TypeScript file,
concatenated.  The definitions below embed the *current* mutually consistent
revision set: the queue/deduplication revision of `src/nostr/handler.ts`
(the first revision in that file, with `processedEvents`, `requestQueue`,
`loadProcessedEvents`, `reconnectToRelay`), the matching revision of
`src/nostr/events.ts` (literal kind-5050 check, model default, top_k and
frequency_penalty fields), and the revision of `src/nostr/types.ts` that
type-checks against them (NostrKind JOB_REQUEST = 5050, JOB_RESULT = 6050;
the stale revision kept at the canonical path still reads 5100/6100, but the
current `events.ts` uses the `prompt` input type and the `top_k` and
`frequency_penalty` fields that only the 5050/6050 revision declares, the
current handler queries kind 6050 for its own results, and
`utils/test-request.ts` sends kind 5050 and listens for kind 6050).

Modelling conventions:
* JavaScript strings are `String`, arrays are `List`; element access `a[i]`
  (which may yield `undefined`) is `List.get?`, so a possibly-undefined
  string is `Option String`.
* Opaque external primitives (event hashing, schnorr signing, public-key
  derivation, `JSON.stringify`, `Date.now`, `parseFloat`, `parseInt`) are
  collected in a `JsPrims` record that definitions take as a parameter;
  `parseFloat`/`parseInt` take an `Option String` because the source can
  apply them to a possibly-undefined tag slot.
* Numbers appearing in parsed parameters are modelled as `ℚ` (for floats)
  and `ℤ` (for integers); no claim depends on float rounding or NaN.
* The asynchronous handler is modelled as a labelled transition system over
  an explicit `HState`.  Event delivery (the `onevent` callback) and one
  complete pass of `processNextRequest` (dequeue one event, run
  `handleJobRequest` to completion, mark the ledger) are the atomic actions.
  This is faithful for the properties proved here because the body of
  `handleJobRequest` never reads the queue or the ledger, and the ledger
  update in `processNextRequest` follows the resolution of
  `handleJobRequest` with no intervening suspension point, while a delivery
  only reads the ledger and appends to the queue.  The outcome of each
  fallible awaited operation (the three/four publishes and the inference
  call) is supplied by a per-job `JobOracle`.
-/

/-- A nostr event as used by the source (the fields of nostr-tools `Event`
that the engine reads or writes). -/
structure NEvent where
  id : String
  pubkey : String
  created_at : Nat
  kind : Nat
  tags : List (List String)
  content : String
  sig : String
deriving DecidableEq, Repr

/- Event kinds from `src/nostr/types.ts` (the current 5050/6050 revision;
see the header comment). -/
namespace NostrKind

def JOB_REQUEST : Nat := 5050

def JOB_RESULT : Nat := 6050

def JOB_FEEDBACK : Nat := 7000

def APP_HANDLER : Nat := 31990

end NostrKind

/-- Opaque JavaScript/library primitives the codec and handler call.  They
are out of the verified core (hashing, signing, key derivation, JSON
serialisation, wall-clock time, numeric string parsing), so the development
is parametric in them. -/
structure JsPrims where
  getPublicKeyF : String → String
  getEventHashF : NEvent → String
  signEventF : NEvent → String → String
  jsonStringifyF : NEvent → String
  nowSec : Nat
  parseFloatF : Option String → ℚ
  parseIntF : Option String → ℤ

/-- The parsed job request, `JobRequest` of `src/nostr/types.ts` as
populated by `parseJobRequest`.  Slots read from possibly short tag arrays
are `Option String`. -/
structure JobRequest where
  id : String
  pubkey : String
  content : String
  model : String
  temperature : ℚ
  max_tokens : ℤ
  top_p : ℚ
  top_k : Option ℤ
  frequency_penalty : Option ℚ
  input : Option String
  inputType : Option String
  relay : Option String
  marker : Option String
deriving DecidableEq, Repr

/-- Tag test `t[0] === 'encrypted'` from `parseJobRequest`. -/
def isEncryptedTag (t : List String) : Bool :=
  t.get? 0 == some "encrypted"

/-- Tag test `t[0] === 'i'` from `parseJobRequest`. -/
def isInputTag (t : List String) : Bool :=
  t.get? 0 == some "i"

/-- Tag test `t[0] === 'param' && t[1] === name` from `parseJobRequest`. -/
def isParamTag (name : String) (t : List String) : Bool :=
  (t.get? 0 == some "param") && (t.get? 1 == some name)

/-- The hard-coded supported model list of `parseJobRequest`
(`src/nostr/events.ts` lines 72-77). -/
def supportedModels : List String :=
  ["gemma-7b-it", "llama3-70b-8192", "llama3-8b-8192", "mixtral-8x7b-32768"]

/-- `src/nostr/events.ts` lines 68-69: the requested model is the third slot
of the first `['param','model',...]` tag when that tag exists (possibly
`undefined` = `none` when the tag is short), and the fixed fallback
`'mixtral-8x7b-32768'` when no such tag exists. -/
def requestedModel (ev : NEvent) : Option String :=
  match ev.tags.find? (isParamTag "model") with
  | some t => t.get? 2
  | none => some "mixtral-8x7b-32768"

/-- `parseJobRequest` from `src/nostr/events.ts` lines 51-109 (current
revision): reject wrong kind, encrypted marker, missing input tag and
unsupported model; otherwise build the `JobRequest` with defaults
temperature 0.7, max_tokens 1024, top_p 1 for absent parameter tags.
The source wraps the body in try/catch returning null; the embedding is a
total function, so every input yields `some` or `none` and no exception
escapes. -/
def parseJobRequest (js : JsPrims) (ev : NEvent) : Option JobRequest :=
  if ev.kind ≠ 5050 then none
  else if ev.tags.any isEncryptedTag then none
  else
    match ev.tags.find? isInputTag with
    | none => none
    | some inputTag =>
      match requestedModel ev with
      | none => none
      | some model =>
        if model ∉ supportedModels then none
        else
          some
            { id := ev.id
              pubkey := ev.pubkey
              content := ev.content
              model := model
              temperature :=
                match ev.tags.find? (isParamTag "temperature") with
                | some t => js.parseFloatF (t.get? 2)
                | none => (7 : ℚ) / 10
              max_tokens :=
                match ev.tags.find? (isParamTag "max_tokens") with
                | some t => js.parseIntF (t.get? 2)
                | none => 1024
              top_p :=
                match ev.tags.find? (isParamTag "top_p") with
                | some t => js.parseFloatF (t.get? 2)
                | none => 1
              top_k :=
                (ev.tags.find? (isParamTag "top_k")).map
                  (fun t => js.parseIntF (t.get? 2))
              frequency_penalty :=
                (ev.tags.find? (isParamTag "frequency_penalty")).map
                  (fun t => js.parseFloatF (t.get? 2))
              input := inputTag.get? 1
              inputType := inputTag.get? 2
              relay := inputTag.get? 3
              marker := inputTag.get? 4 }

/-- The `JobResult` record of `src/nostr/types.ts` (`content` is
`string | null`). -/
structure JobResultPayload where
  requestId : String
  customerPubkey : String
  content : Option String
  request : NEvent
deriving DecidableEq, Repr

/-- `createJobResult` from `src/nostr/events.ts` lines 111-132: a
kind-`JOB_RESULT` event with tags `e`, `p`, `request`, content
`result.content || ''`, then the id and signature are filled in (hashing
and signing are opaque). -/
def createJobResult (js : JsPrims) (result : JobResultPayload)
    (privateKey : String) : NEvent :=
  let base : NEvent :=
    { id := ""
      pubkey := js.getPublicKeyF privateKey
      created_at := js.nowSec
      kind := NostrKind.JOB_RESULT
      tags := [["e", result.requestId], ["p", result.customerPubkey],
               ["request", js.jsonStringifyF result.request]]
      content := result.content.getD ""
      sig := "" }
  let withId := { base with id := js.getEventHashF base }
  { withId with sig := js.signEventF withId privateKey }

/-- One message observed on the publish path.  `result` records the payload
handed to `publishResult` (`content` is the provider text, `string | null`);
`feedback` records the payload handed to `publishFeedback`. -/
inductive PubMsg where
  | feedback (requestId customerPubkey : String) (status : String)
      (extraInfo : Option String)
  | result (requestId customerPubkey : String) (content : Option String)
deriving DecidableEq, Repr

/-- Outcomes of the fallible awaited operations inside one pass of
`handleJobRequest` (`src/nostr/handler.ts` lines 248-315): whether each
publish resolves, whether the inference call resolves and with what content,
and the error message string used for the error feedback. -/
structure JobOracle where
  procFbOk : Bool
  inferenceOk : Bool
  inferenceContent : Option String
  resultOk : Bool
  successFbOk : Bool
  errorFbOk : Bool
  errorMsg : String
deriving DecidableEq, Repr

/-- What one completed pass of `handleJobRequest` did: the messages it
published in order, whether the `groq.chat.completions.create` call was
reached, and whether the promise rejected (threw to
`processNextRequest`). -/
structure HandleResult where
  published : List PubMsg
  inferenceInvoked : Bool
  threw : Bool
deriving DecidableEq, Repr

/-- The catch block of `handleJobRequest` (lines 302-314): publish error
feedback; the publish itself may fail, in which case the rejection
propagates to the caller and nothing further is published. -/
def errorTail (pub : List PubMsg) (invoked : Bool) (o : JobOracle)
    (req : JobRequest) : HandleResult :=
  if o.errorFbOk then
    ⟨pub ++ [PubMsg.feedback req.id req.pubkey "error" (some o.errorMsg)],
      invoked, false⟩
  else ⟨pub, invoked, true⟩

/-- `handleJobRequest` from `src/nostr/handler.ts` lines 248-315, as a
function of the event and the oracle of awaited-operation outcomes:
parse (return silently on `null`); publish processing feedback; call the
inference provider; publish the result; publish success feedback; any
failure transfers to the catch block (`errorTail`). -/
def handleJobRequest (js : JsPrims) (ev : NEvent) (o : JobOracle) :
    HandleResult :=
  match parseJobRequest js ev with
  | none => ⟨[], false, false⟩
  | some req =>
    if o.procFbOk then
      let p1 := [PubMsg.feedback req.id req.pubkey "processing" none]
      if o.inferenceOk then
        if o.resultOk then
          let p2 := p1 ++ [PubMsg.result req.id req.pubkey o.inferenceContent]
          if o.successFbOk then
            ⟨p2 ++ [PubMsg.feedback req.id req.pubkey "success" none],
              true, false⟩
          else errorTail p2 true o req
        else errorTail p1 true o req
      else errorTail p1 true o req
    else errorTail [] false o req

/-- The configuration surface the subscription path reads
(`NostrConfig.allowedPubkey`). -/
structure HandlerConfig where
  allowedPubkey : Option String
deriving DecidableEq, Repr

/-- The mutable handler state the claims observe: the deduplication ledger
(`processedEvents`), the FIFO queue (`requestQueue`), plus two observation
logs — every successfully published message in order and the event id of
every inference invocation in order. -/
structure HState where
  processedEvents : List String
  requestQueue : List NEvent
  published : List PubMsg
  inferenceCalls : List String
deriving DecidableEq, Repr

/-- The guard `if (this.config.allowedPubkey && event.pubkey !==
this.config.allowedPubkey)` of the `onevent` callback (lines 196-199).
JavaScript truthiness: an empty configured string disables the check. -/
def authorized (allowedPubkey : Option String) (evPubkey : String) : Bool :=
  match allowedPubkey with
  | none => true
  | some pk => if pk = "" then true else evPubkey == pk

/-- The `onevent` callback of `subscribeToRequests` (lines 185-207): drop
events already in the ledger, drop unauthorized requesters, otherwise append
to the queue.  The timestamp refresh is elided (no claim observes it); the
dispatch call it makes is the separate `process` action. -/
def oneventStep (cfg : HandlerConfig) (s : HState) (ev : NEvent) : HState :=
  if s.processedEvents.contains ev.id then s
  else if authorized cfg.allowedPubkey ev.pubkey = false then s
  else { s with requestQueue := s.requestQueue ++ [ev] }

/-- One complete pass of `processNextRequest` (lines 225-246) when a job is
available: dequeue the head, run `handleJobRequest` to completion, and mark
the ledger exactly when `handleJobRequest` resolved without throwing.  The
pacing delay and the `isProcessing` flag (which only serialises passes) have
no further observable effect in this atomic-pass model. -/
def processNextRequest (js : JsPrims) (o : JobOracle) (s : HState) : HState :=
  match s.requestQueue with
  | [] => s
  | ev :: rest =>
    let h := handleJobRequest js ev o
    { processedEvents :=
        if h.threw then s.processedEvents else s.processedEvents ++ [ev.id]
      requestQueue := rest
      published := s.published ++ h.published
      inferenceCalls :=
        s.inferenceCalls ++ (if h.inferenceInvoked then [ev.id] else []) }

/-- An atomic step of the handler: either the relay layer delivers an event
to the subscription callback, or the dispatcher runs one job to
completion. -/
inductive HAction where
  | deliver (ev : NEvent)
  | process (o : JobOracle)
deriving Repr

/-- Transition function of the handler. -/
def hstep (js : JsPrims) (cfg : HandlerConfig) (s : HState) :
    HAction → HState
  | HAction.deliver ev => oneventStep cfg s ev
  | HAction.process o => processNextRequest js o s

/-- Run a list of actions from a state. -/
def hrun (js : JsPrims) (cfg : HandlerConfig) (s : HState)
    (acts : List HAction) : HState :=
  acts.foldl (hstep js cfg) s

/-- Extraction of the original request id from one stored own-result event
(`loadProcessedEvents`, lines 137-143): the second slot of the first `e`
tag, kept only when truthy (a nonempty string). -/
def extractRequestId (response : NEvent) : Option String :=
  match response.tags.find? (fun t => t.get? 0 == some "e") with
  | some t =>
    match t.get? 1 with
    | some rid => if rid = "" then none else some rid
    | none => none
  | none => none

/-- The relay-side filter `{ kinds: [6050], since, authors: [pubkey] }` used
by `loadProcessedEvents` (lines 123-128): which stored events a relay
returns for the startup query. -/
def matchesOwnResultFilter (pubkey : String) (since : Nat)
    (e : NEvent) : Bool :=
  (e.kind == 6050) && (e.pubkey == pubkey) && (since ≤ e.created_at)

/-- `loadProcessedEvents` (lines 119-146) applied to the list of responses
the relays returned: insert every extracted original request id into the
ledger. -/
def loadProcessedEvents (responses : List NEvent) (s : HState) : HState :=
  { s with processedEvents :=
      s.processedEvents ++ responses.filterMap extractRequestId }

/-- `MAX_RECONNECT_ATTEMPTS` from `src/nostr/handler.ts` line 29. -/
def MAX_RECONNECT_ATTEMPTS : Nat := 5

/-- `RECONNECT_DELAY` (milliseconds) from `src/nostr/handler.ts` line 30. -/
def RECONNECT_DELAY : ℚ := 5000

/-- What one call of `reconnectToRelay` did for the endpoint. -/
inductive ReconnectOutcome where
  | capped
  | connected
  | scheduled (delayMs : ℚ)
deriving DecidableEq, Repr

/-- `reconnectToRelay` from `src/nostr/handler.ts` lines 94-117, for a
single endpoint, as a function of the stored attempt counter and the
outcome of `pool.ensureRelay`: increment the counter; above the ceiling
return without attempting; on success reset the counter to 0; on failure
schedule the next call after `RECONNECT_DELAY * 2 ^ (attempts - 1)`
milliseconds (the counter value after the increment) — no randomness is
involved anywhere in this code path. -/
def reconnectToRelay (attempts : Nat) (connectOk : Bool) :
    Nat × ReconnectOutcome :=
  let a := attempts + 1
  if MAX_RECONNECT_ATTEMPTS < a then (a, ReconnectOutcome.capped)
  else if connectOk then (0, ReconnectOutcome.connected)
  else (a, ReconnectOutcome.scheduled (RECONNECT_DELAY * 2 ^ (a - 1)))

/-- Iterate `reconnectToRelay` over a list of connect outcomes, returning
the final counter and the per-call outcomes in order. -/
def runReconnects (attempts : Nat) (oks : List Bool) :
    Nat × List ReconnectOutcome :=
  match oks with
  | [] => (attempts, [])
  | ok :: rest =>
    let r := reconnectToRelay attempts ok
    let next := runReconnects r.1 rest
    (next.1, r.2 :: next.2)

/-- Modelled from the spec: the only jitter formula the spec defines
(section 4.5, `publishWithRetry`) applied to the reconnect delay claim of
section 4.2 — `delay = base × 2^(attempt−1) × (1 + r)` for a fresh random
sample `r ∈ [0,1)`.  Used solely to compare the claimed jittered delay with
the deterministic delay the code computes. -/
def specJitteredDelay (base : ℚ) (attempt : Nat) (r : ℚ) : ℚ :=
  base * 2 ^ (attempt - 1) * (1 + r)

/-- Concrete instantiation of the opaque primitives, used to evaluate the
model on closed inputs. -/
def jsTriv : JsPrims where
  getPublicKeyF := fun k => "pub:" ++ k
  getEventHashF := fun _ => "hash"
  signEventF := fun _ _ => "sig"
  jsonStringifyF := fun _ => "{}"
  nowSec := 1000000
  parseFloatF := fun _ => 0
  parseIntF := fun _ => 0

/-- A well-formed kind-5050 job request event (input tag, no parameter
tags). -/
def evFix : NEvent :=
  { id := "r1", pubkey := "u1", created_at := 5, kind := 5050,
    tags := [["i", "2+2?", "text"]], content := "", sig := "" }

/-- The `JobRequest` that `parseJobRequest` produces for `evFix`. -/
def reqFix : JobRequest :=
  { id := "r1", pubkey := "u1", content := "",
    model := "mixtral-8x7b-32768", temperature := 7 / 10,
    max_tokens := 1024, top_p := 1, top_k := none,
    frequency_penalty := none, input := some "2+2?",
    inputType := some "text", relay := none, marker := none }

/-- A kind-5050 event with no input tag: `parseJobRequest` rejects it. -/
def evNoInput : NEvent :=
  { id := "r2", pubkey := "u1", created_at := 5, kind := 5050,
    tags := [], content := "", sig := "" }

/-- The empty handler start state. -/
def initState : HState :=
  { processedEvents := [], requestQueue := [], published := [],
    inferenceCalls := [] }

/-- Oracle: every awaited operation succeeds, the provider returns "4". -/
def oSucc : JobOracle :=
  { procFbOk := true, inferenceOk := true, inferenceContent := some "4",
    resultOk := true, successFbOk := true, errorFbOk := true,
    errorMsg := "" }

/-- Oracle: the inference call fails (e.g. times out); the error feedback
publish succeeds. -/
def oTimeout : JobOracle :=
  { procFbOk := true, inferenceOk := false, inferenceContent := none,
    resultOk := false, successFbOk := false, errorFbOk := true,
    errorMsg := "Request timed out" }

/-- Oracle: the inference call fails and the error feedback publish also
fails, so `handleJobRequest` rejects. -/
def oThrow : JobOracle :=
  { procFbOk := true, inferenceOk := false, inferenceContent := none,
    resultOk := false, successFbOk := false, errorFbOk := false,
    errorMsg := "Request timed out" }

/-- Oracle: inference and result publish succeed, the success feedback
publish fails, the error feedback publish succeeds. -/
def oPubFail : JobOracle :=
  { procFbOk := true, inferenceOk := true, inferenceContent := some "4",
    resultOk := true, successFbOk := false, errorFbOk := true,
    errorMsg := "publish failed" }

/-- A prior own-result payload referencing original job id "a". -/
def resA : JobResultPayload :=
  { requestId := "a", customerPubkey := "u1", content := some "1",
    request := evFix }

/-- A prior own-result payload referencing original job id "b". -/
def resB : JobResultPayload :=
  { requestId := "b", customerPubkey := "u1", content := some "2",
    request := evFix }

/-- A prior own-result payload referencing original job id "c". -/
def resC : JobResultPayload :=
  { requestId := "c", customerPubkey := "u1", content := some "3",
    request := evFix }

/-- A redelivered job request whose id "a" already has a published
result. -/
def evRedeliverA : NEvent :=
  { id := "a", pubkey := "u2", created_at := 9, kind := 5050,
    tags := [["i", "x", "text"]], content := "", sig := "" }

/-- A well-formed job request from a requester who is not on the
allow-list. -/
def evEve : NEvent :=
  { id := "r3", pubkey := "eve", created_at := 5, kind := 5050,
    tags := [["i", "x", "text"]], content := "", sig := "" }

theorem hrun_cons (js : JsPrims) (cfg : HandlerConfig) (s : HState)
    (a : HAction) (acts : List HAction) :
    hrun js cfg s (a :: acts) = hrun js cfg (hstep js cfg s a) acts := rfl

/-- Claim C5: every job-result message built by `createJobResult` has kind
exactly 6050 and carries tag `e` = [originalJobId], tag `p` =
[requesterIdentity], tag `request` = [json-encoded original message], and
content equal to the result text. -/
theorem createJobResult_shape (js : JsPrims) (result : JobResultPayload)
    (privateKey : String) (s : String) (hc : result.content = some s) :
    (createJobResult js result privateKey).kind = 6050 ∧
      (createJobResult js result privateKey).tags =
        [["e", result.requestId], ["p", result.customerPubkey],
         ["request", js.jsonStringifyF result.request]] ∧
      (createJobResult js result privateKey).content = s := by
  refine ⟨rfl, rfl, ?_⟩
  simp [createJobResult, hc]

/-- Claim C5 witness: the shape of a concrete result message. -/
theorem createJobResult_shape_witness :
    (createJobResult jsTriv resA "priv").kind = 6050 ∧
      (createJobResult jsTriv resA "priv").tags =
        [["e", "a"], ["p", "u1"], ["request", "{}"]] ∧
      (createJobResult jsTriv resA "priv").content = "1" :=
  createJobResult_shape jsTriv resA "priv" "1" rfl

/-- Claim C6: `parseJobRequest` returns invalid (`none`) exactly when the
message kind is not 5050, or an encrypted marker tag is present, or no
input tag is present, or the requested model is not in the supported set;
on every other message it returns a `JobRequest`.  The source guards the
body with try/catch returning null, and the embedding is a total function:
no input makes it throw to its caller. -/
theorem parseJobRequest_invalid_iff (js : JsPrims) (ev : NEvent) :
    parseJobRequest js ev = none ↔
      (ev.kind ≠ 5050 ∨ ev.tags.any isEncryptedTag = true ∨
        ev.tags.find? isInputTag = none ∨
        (∀ m, requestedModel ev = some m → m ∉ supportedModels)) := by
  by_cases hk : ev.kind = 5050
  · by_cases henc : ev.tags.any isEncryptedTag = true
    · simp [parseJobRequest, hk, henc]
    · cases hfind : ev.tags.find? isInputTag with
      | none => simp [parseJobRequest, hk, henc, hfind]
      | some inputTag =>
        cases hmodel : requestedModel ev with
        | none =>
          simp [parseJobRequest, hk, henc, hfind, hmodel]
        | some m =>
          by_cases hsup : m ∈ supportedModels
          · simp [parseJobRequest, hk, henc, hfind, hmodel, hsup]
          · simp [parseJobRequest, hk, henc, hfind, hmodel, hsup]
  · simp [parseJobRequest, hk]

/-- Claim C7: on a valid job request with a supported model and no
temperature, max_tokens or top_p parameter tags, `parseJobRequest` returns
a `JobRequest` with temperature 0.7, max_tokens 1024 and top_p 1. -/
theorem parseJobRequest_defaults (js : JsPrims) (ev : NEvent) (m : String)
    (hk : ev.kind = 5050)
    (henc : ev.tags.any isEncryptedTag = false)
    (hin : (ev.tags.find? isInputTag).isSome = true)
    (hm : requestedModel ev = some m)
    (hsup : m ∈ supportedModels)
    (htemp : ev.tags.find? (isParamTag "temperature") = none)
    (hmax : ev.tags.find? (isParamTag "max_tokens") = none)
    (htp : ev.tags.find? (isParamTag "top_p") = none) :
    ∃ req, parseJobRequest js ev = some req ∧
      req.temperature = 7 / 10 ∧ req.max_tokens = 1024 ∧ req.top_p = 1 := by
  obtain ⟨inputTag, hfind⟩ := Option.isSome_iff_exists.mp hin
  have heq : parseJobRequest js ev = some
      { id := ev.id, pubkey := ev.pubkey, content := ev.content, model := m,
        temperature := 7 / 10, max_tokens := 1024, top_p := 1,
        top_k := (ev.tags.find? (isParamTag "top_k")).map
          (fun t => js.parseIntF (t.get? 2)),
        frequency_penalty :=
          (ev.tags.find? (isParamTag "frequency_penalty")).map
            (fun t => js.parseFloatF (t.get? 2)),
        input := inputTag.get? 1, inputType := inputTag.get? 2,
        relay := inputTag.get? 3, marker := inputTag.get? 4 } := by
    simp [parseJobRequest, hk, henc, hfind, hm, hsup, htemp, hmax, htp]
  exact ⟨_, heq, rfl, rfl, rfl⟩

/-- Claim C7 witness: the defaults on a concrete parameterless request. -/
theorem parseJobRequest_defaults_witness :
    ∃ req, parseJobRequest jsTriv evFix = some req ∧
      req.temperature = 7 / 10 ∧ req.max_tokens = 1024 ∧ req.top_p = 1 :=
  parseJobRequest_defaults jsTriv evFix "mixtral-8x7b-32768" rfl rfl rfl rfl
    (by decide) rfl rfl rfl

/-- Claim C10: a kind-5050 event with an input tag, no encrypted marker and
no model parameter tag at all is not rejected: `parseJobRequest` returns a
`JobRequest` whose model is the fixed fallback "mixtral-8x7b-32768". -/
theorem parseJobRequest_model_fallback (js : JsPrims) (ev : NEvent)
    (hk : ev.kind = 5050)
    (henc : ev.tags.any isEncryptedTag = false)
    (hin : (ev.tags.find? isInputTag).isSome = true)
    (hmt : ev.tags.find? (isParamTag "model") = none) :
    ∃ req, parseJobRequest js ev = some req ∧
      req.model = "mixtral-8x7b-32768" := by
  obtain ⟨inputTag, hfind⟩ := Option.isSome_iff_exists.mp hin
  have hm : requestedModel ev = some "mixtral-8x7b-32768" := by
    simp [requestedModel, hmt]
  have heq : parseJobRequest js ev = some
      { id := ev.id, pubkey := ev.pubkey, content := ev.content,
        model := "mixtral-8x7b-32768",
        temperature :=
          match ev.tags.find? (isParamTag "temperature") with
          | some t => js.parseFloatF (t.get? 2)
          | none => (7 : ℚ) / 10,
        max_tokens :=
          match ev.tags.find? (isParamTag "max_tokens") with
          | some t => js.parseIntF (t.get? 2)
          | none => 1024,
        top_p :=
          match ev.tags.find? (isParamTag "top_p") with
          | some t => js.parseFloatF (t.get? 2)
          | none => 1,
        top_k := (ev.tags.find? (isParamTag "top_k")).map
          (fun t => js.parseIntF (t.get? 2)),
        frequency_penalty :=
          (ev.tags.find? (isParamTag "frequency_penalty")).map
            (fun t => js.parseFloatF (t.get? 2)),
        input := inputTag.get? 1, inputType := inputTag.get? 2,
        relay := inputTag.get? 3, marker := inputTag.get? 4 } := by
    simp [parseJobRequest, hk, henc, hfind, hm, supportedModels]
  exact ⟨_, heq, rfl⟩

/-- Claim C10 witness: the fallback model on a concrete request with no
model parameter tag. -/
theorem parseJobRequest_model_fallback_witness :
    ∃ req, parseJobRequest jsTriv evFix = some req ∧
      req.model = "mixtral-8x7b-32768" :=
  parseJobRequest_model_fallback jsTriv evFix rfl rfl rfl rfl

theorem handleJobRequest_invoked (js : JsPrims) (ev : NEvent) (o : JobOracle)
    (req : JobRequest) (hp : parseJobRequest js ev = some req)
    (ho : o.procFbOk = true) :
    (handleJobRequest js ev o).inferenceInvoked = true := by
  simp only [handleJobRequest, hp, ho, if_true, errorTail]
  cases o.inferenceOk <;> cases o.resultOk <;> cases o.successFbOk <;>
    cases o.errorFbOk <;> simp [errorTail]

/-- Claim C2, corrected.  As stated the claim is false (see
`inference_failure_ledger_counterexample`): when the inference call fails
but the error-feedback publish succeeds, `handleJobRequest` resolves
normally and `processNextRequest` adds the id to the ledger.  Amended
claim: on inference failure the engine publishes error feedback and the
identifier IS added to the processed-events ledger whenever that error
feedback publish succeeds; the identifier stays out of the ledger only when
the error-feedback publish itself also fails (the rejection then propagates
and the marking line is skipped). -/
theorem inference_failure_marks_ledger (js : JsPrims) (s : HState)
    (ev : NEvent) (rest : List NEvent) (o1 o2 : JobOracle) (req : JobRequest)
    (hq : s.requestQueue = ev :: rest)
    (hp : parseJobRequest js ev = some req)
    (h1p : o1.procFbOk = true) (h1i : o1.inferenceOk = false)
    (h1e : o1.errorFbOk = true)
    (h2p : o2.procFbOk = true) (h2i : o2.inferenceOk = false)
    (h2e : o2.errorFbOk = false) :
    (handleJobRequest js ev o1).published =
      [PubMsg.feedback req.id req.pubkey "processing" none,
       PubMsg.feedback req.id req.pubkey "error" (some o1.errorMsg)] ∧
    (processNextRequest js o1 s).processedEvents =
      s.processedEvents ++ [ev.id] ∧
    (processNextRequest js o2 s).processedEvents = s.processedEvents := by
  have hh1 : (handleJobRequest js ev o1).threw = false := by
    simp [handleJobRequest, hp, h1p, h1i, errorTail, h1e]
  have hh2 : (handleJobRequest js ev o2).threw = true := by
    simp [handleJobRequest, hp, h2p, h2i, errorTail, h2e]
  refine ⟨?_, ?_, ?_⟩
  · simp [handleJobRequest, hp, h1p, h1i, errorTail, h1e]
  · simp [processNextRequest, hq, hh1]
  · simp [processNextRequest, hq, hh2]

/-- Claim C2 witness: a concrete timed-out job is marked in the ledger when
its error feedback goes out, and left unmarked when even that publish
fails. -/
theorem inference_failure_marks_ledger_witness :
    (handleJobRequest jsTriv evFix oTimeout).published =
      [PubMsg.feedback "r1" "u1" "processing" none,
       PubMsg.feedback "r1" "u1" "error" (some "Request timed out")] ∧
    (processNextRequest jsTriv oTimeout
      { processedEvents := [], requestQueue := [evFix], published := [],
        inferenceCalls := [] }).processedEvents = ["r1"] ∧
    (processNextRequest jsTriv oThrow
      { processedEvents := [], requestQueue := [evFix], published := [],
        inferenceCalls := [] }).processedEvents = [] :=
  inference_failure_marks_ledger jsTriv
    { processedEvents := [], requestQueue := [evFix], published := [],
      inferenceCalls := [] }
    evFix [] oTimeout oThrow reqFix rfl rfl rfl rfl rfl rfl rfl rfl

/-- Claim C2 counterexample: the claim as stated is false.  Deliver and
process a job whose inference call fails while the error feedback publish
succeeds (`oTimeout`): the engine publishes processing then error feedback,
exactly the claimed failure sequence, yet the job id "r1" IS in the
processed-events ledger afterwards, so redelivery would be dropped rather
than reprocessed. -/
theorem inference_failure_ledger_counterexample :
    (hrun jsTriv { allowedPubkey := none } initState
      [HAction.deliver evFix, HAction.process oTimeout]).published =
      [PubMsg.feedback "r1" "u1" "processing" none,
       PubMsg.feedback "r1" "u1" "error" (some "Request timed out")] ∧
    (hrun jsTriv { allowedPubkey := none } initState
      [HAction.deliver evFix, HAction.process oTimeout]).processedEvents =
      ["r1"] := by
  constructor <;> rfl

/-- Claim C3, corrected.  As stated the claim is false (see
`job_publish_sequence_counterexample`): a publish failure after a
successful inference call diverts to the catch block, so the sequence can
be [processing, result, error].  Amended claim: for a job that enters
processing (parses, and the outcome of each publish is given by the
oracle), when the processing feedback, inference call, result publish and
success-feedback publish all succeed the published sequence is exactly
[processing-feedback, result, success-feedback]; when the processing
feedback succeeds, the inference call fails and the error-feedback publish
succeeds it is exactly [processing-feedback, error-feedback]; in neither
case is anything reordered, skipped or duplicated. -/
theorem job_publish_sequence (js : JsPrims) (ev : NEvent) (o : JobOracle)
    (req : JobRequest) (hp : parseJobRequest js ev = some req) :
    (o.procFbOk = true → o.inferenceOk = true → o.resultOk = true →
      o.successFbOk = true →
      (handleJobRequest js ev o).published =
        [PubMsg.feedback req.id req.pubkey "processing" none,
         PubMsg.result req.id req.pubkey o.inferenceContent,
         PubMsg.feedback req.id req.pubkey "success" none]) ∧
    (o.procFbOk = true → o.inferenceOk = false → o.errorFbOk = true →
      (handleJobRequest js ev o).published =
        [PubMsg.feedback req.id req.pubkey "processing" none,
         PubMsg.feedback req.id req.pubkey "error" (some o.errorMsg)]) := by
  constructor
  · intro h1 h2 h3 h4
    simp [handleJobRequest, hp, h1, h2, h3, h4]
  · intro h1 h2 h3
    simp [handleJobRequest, hp, h1, h2, errorTail, h3]

/-- Claim C3 witness: both amended sequences realised on a concrete job. -/
theorem job_publish_sequence_witness :
    (handleJobRequest jsTriv evFix oSucc).published =
      [PubMsg.feedback "r1" "u1" "processing" none,
       PubMsg.result "r1" "u1" (some "4"),
       PubMsg.feedback "r1" "u1" "success" none] ∧
    (handleJobRequest jsTriv evFix oTimeout).published =
      [PubMsg.feedback "r1" "u1" "processing" none,
       PubMsg.feedback "r1" "u1" "error" (some "Request timed out")] :=
  ⟨(job_publish_sequence jsTriv evFix oSucc reqFix rfl).1 rfl rfl rfl rfl,
   (job_publish_sequence jsTriv evFix oTimeout reqFix rfl).2 rfl rfl rfl⟩

/-- Claim C3 counterexample: the claim as stated is false.  On a concrete
job whose inference call succeeds (`oPubFail.inferenceOk = true`) but whose
success-feedback publish fails, the published sequence is
[processing-feedback, result, error-feedback] — not the claimed
[processing-feedback, result, success-feedback]. -/
theorem job_publish_sequence_counterexample :
    oPubFail.inferenceOk = true ∧
    (handleJobRequest jsTriv evFix oPubFail).published =
      [PubMsg.feedback "r1" "u1" "processing" none,
       PubMsg.result "r1" "u1" (some "4"),
       PubMsg.feedback "r1" "u1" "error" (some "publish failed")] ∧
    (handleJobRequest jsTriv evFix oPubFail).published ≠
      [PubMsg.feedback "r1" "u1" "processing" none,
       PubMsg.result "r1" "u1" (some "4"),
       PubMsg.feedback "r1" "u1" "success" none] := by
  refine ⟨rfl, rfl, ?_⟩
  decide

/-- Claim C9, corrected.  The unauthorized half of the claim holds: an
event from a requester not on the configured allow-list is dropped by the
subscription callback before it reaches the queue, with no feedback and no
inference.  The parse-failure half is false as stated (see
`parse_failure_enqueued_counterexample`): the subscription callback does
not parse, so a malformed kind-5050 event IS appended to the job queue;
it is dropped at the start of `handleJobRequest` on dequeue — with no
feedback published, no inference invoked, and (because `handleJobRequest`
resolves) its id is then marked in the ledger. -/
theorem queue_boundary_drop (js : JsPrims) (cfg : HandlerConfig) (s : HState)
    (a b : NEvent) (rest : List NEvent) (o : JobOracle)
    (hauth : authorized cfg.allowedPubkey a.pubkey = false)
    (hparse : parseJobRequest js b = none)
    (hq : s.requestQueue = b :: rest) :
    oneventStep cfg s a = s ∧
    processNextRequest js o s =
      { s with requestQueue := rest,
               processedEvents := s.processedEvents ++ [b.id] } := by
  constructor
  · by_cases hc : s.processedEvents.contains a.id
    · have hm : a.id ∈ s.processedEvents := by simpa using hc
      simp [oneventStep, hm]
    · simp [oneventStep, hc, hauth]
  · simp [processNextRequest, hq, handleJobRequest, hparse]

/-- Claim C9 witness: a concrete unauthorized delivery leaves the state
unchanged, and a concrete queued unparseable event is dequeued with no
publish and no inference, only a ledger mark. -/
theorem queue_boundary_drop_witness :
    oneventStep { allowedPubkey := some "u1" }
      { processedEvents := [], requestQueue := [evNoInput], published := [],
        inferenceCalls := [] } evEve =
      { processedEvents := [], requestQueue := [evNoInput], published := [],
        inferenceCalls := [] } ∧
    processNextRequest jsTriv oSucc
      { processedEvents := [], requestQueue := [evNoInput], published := [],
        inferenceCalls := [] } =
      { processedEvents := ["r2"], requestQueue := [], published := [],
        inferenceCalls := [] } :=
  queue_boundary_drop jsTriv { allowedPubkey := some "u1" }
    { processedEvents := [], requestQueue := [evNoInput], published := [],
      inferenceCalls := [] }
    evEve evNoInput [] oSucc (by decide) (by decide) rfl

/-- Claim C9 counterexample: the claim as stated is false.  The concrete
kind-5050 event `evNoInput` has no input tag, so it fails to parse, yet
after delivery it sits in the job queue — it was not dropped at the queue
boundary. -/
theorem parse_failure_enqueued_counterexample :
    parseJobRequest jsTriv evNoInput = none ∧
    (hrun jsTriv { allowedPubkey := none } initState
      [HAction.deliver evNoInput]).requestQueue = [evNoInput] := by
  constructor <;> rfl

theorem count_stable_aux (js : JsPrims) (cfg : HandlerConfig) (tid : String) :
    ∀ (acts : List HAction) (s : HState),
      tid ∈ s.processedEvents →
      tid ∉ s.requestQueue.map NEvent.id →
      (hrun js cfg s acts).inferenceCalls.count tid =
        s.inferenceCalls.count tid := by
  intro acts
  induction acts with
  | nil => intro s _ _; rfl
  | cons a rest ih =>
    intro s h1 h2
    rw [hrun_cons]
    cases a with
    | deliver ev =>
      by_cases hc : s.processedEvents.contains ev.id
      · have : hstep js cfg s (HAction.deliver ev) = s := by
          simp [hstep, oneventStep, List.elem_iff.mp hc]
        rw [this]; exact ih s h1 h2
      · by_cases hauth : authorized cfg.allowedPubkey ev.pubkey
        · have hne : ev.id ≠ tid := by
            intro h
            exact hc (by simpa [h] using List.elem_iff.mpr h1)
          have hcm : ev.id ∉ s.processedEvents :=
            fun h => hc (List.elem_iff.mpr h)
          have hs : hstep js cfg s (HAction.deliver ev) =
              { s with requestQueue := s.requestQueue ++ [ev] } := by
            simp [hstep, oneventStep, hcm, hauth]
          rw [hs]
          refine ih _ h1 ?_
          simp only [List.map_append, List.map_cons, List.map_nil]
          intro hmem
          rcases List.mem_append.mp hmem with h | h
          · exact h2 h
          · simp at h; exact hne h.symm
        · have hcm : ev.id ∉ s.processedEvents :=
            fun h => hc (List.elem_iff.mpr h)
          have : hstep js cfg s (HAction.deliver ev) = s := by
            simp [hstep, oneventStep, hcm, hauth]
          rw [this]; exact ih s h1 h2
    | process o =>
      cases hq : s.requestQueue with
      | nil =>
        have : hstep js cfg s (HAction.process o) = s := by
          simp [hstep, processNextRequest, hq]
        rw [this]; exact ih s h1 h2
      | cons ev rest2 =>
        have hne : ev.id ≠ tid := by
          intro h
          apply h2
          rw [hq]
          simp [h]
        have hq2 : tid ∉ rest2.map NEvent.id := by
          intro h
          apply h2
          rw [hq]
          simp only [List.map_cons, List.mem_cons]
          exact Or.inr h
        have hs : hstep js cfg s (HAction.process o) =
            { processedEvents :=
                if (handleJobRequest js ev o).threw then s.processedEvents
                else s.processedEvents ++ [ev.id],
              requestQueue := rest2,
              published := s.published ++ (handleJobRequest js ev o).published,
              inferenceCalls := s.inferenceCalls ++
                (if (handleJobRequest js ev o).inferenceInvoked then [ev.id]
                 else []) } := by
          simp [hstep, processNextRequest, hq]
        rw [hs]
        have hmem : tid ∈
            (if (handleJobRequest js ev o).threw then s.processedEvents
             else s.processedEvents ++ [ev.id]) := by
          by_cases ht : (handleJobRequest js ev o).threw
          · simpa [ht] using h1
          · simp only [ht, if_false]
            exact List.mem_append.mpr (Or.inl h1)
        rw [ih _ hmem hq2]
        cases h : (handleJobRequest js ev o).inferenceInvoked
        · simp
        · simp [List.count_append, List.count_singleton, hne]

/-- Claim C1, corrected.  As stated the claim is false (see
`dedup_double_invocation_counterexample`): a first copy whose handling
rejects (inference failed and the error-feedback publish failed too) is
never marked in the ledger, so a redelivery after that terminal failure is
queued and processed again — two inference invocations.  Amended claim:
when the first copy's handling publishes its processing feedback (so the
inference call is reached) and resolves without throwing — the success
path, or the error path with the error feedback delivered — the identifier
is in the ledger from then on, and over the delivery before processing,
the redelivery after it, and any further interleaving of deliveries and
processing steps, the inference collaborator runs exactly once for that
identifier. -/
theorem dedup_single_invocation (js : JsPrims) (cfg : HandlerConfig)
    (ev : NEvent) (o : JobOracle) (req : JobRequest) (s0 : HState)
    (acts : List HAction)
    (hauth : authorized cfg.allowedPubkey ev.pubkey = true)
    (hparse : parseJobRequest js ev = some req)
    (hproc : o.procFbOk = true)
    (hthrew : (handleJobRequest js ev o).threw = false)
    (hq0 : s0.requestQueue = [])
    (hp0 : ev.id ∉ s0.processedEvents)
    (hc0 : s0.inferenceCalls.count ev.id = 0) :
    (hrun js cfg s0
      ([HAction.deliver ev, HAction.process o, HAction.deliver ev] ++ acts)
      ).inferenceCalls.count ev.id = 1 := by
  have hs1 : hstep js cfg s0 (HAction.deliver ev) =
      { s0 with requestQueue := s0.requestQueue ++ [ev] } := by
    simp [hstep, oneventStep, hp0, hauth]
  have hinv := handleJobRequest_invoked js ev o req hparse hproc
  have hs2 : hstep js cfg { s0 with requestQueue := s0.requestQueue ++ [ev] }
      (HAction.process o) =
      { processedEvents := s0.processedEvents ++ [ev.id],
        requestQueue := [],
        published := s0.published ++ (handleJobRequest js ev o).published,
        inferenceCalls := s0.inferenceCalls ++ [ev.id] } := by
    simp [hstep, processNextRequest, hq0, hinv, hthrew]
  have hmem : ev.id ∈ s0.processedEvents ++ [ev.id] :=
    List.mem_append.mpr (Or.inr (List.mem_singleton.mpr rfl))
  have hs3 : hstep js cfg
      { processedEvents := s0.processedEvents ++ [ev.id],
        requestQueue := [],
        published := s0.published ++ (handleJobRequest js ev o).published,
        inferenceCalls := s0.inferenceCalls ++ [ev.id] }
      (HAction.deliver ev) =
      { processedEvents := s0.processedEvents ++ [ev.id],
        requestQueue := [],
        published := s0.published ++ (handleJobRequest js ev o).published,
        inferenceCalls := s0.inferenceCalls ++ [ev.id] } := by
    simp [hstep, oneventStep, hmem]
  rw [List.cons_append, hrun_cons, hs1, List.cons_append, hrun_cons, hs2,
    List.cons_append, hrun_cons, hs3, List.nil_append]
  rw [count_stable_aux js cfg ev.id acts _ hmem (by simp)]
  simp [List.count_append, hc0]

/-- Claim C1 witness: a concrete request delivered before and redelivered
after its successful terminal state yields exactly one inference
invocation. -/
theorem dedup_single_invocation_witness :
    (hrun jsTriv { allowedPubkey := none } initState
      ([HAction.deliver evFix, HAction.process oSucc,
        HAction.deliver evFix] ++ [])).inferenceCalls.count "r1" = 1 :=
  dedup_single_invocation jsTriv { allowedPubkey := none } evFix oSucc
    reqFix initState [] rfl rfl rfl rfl rfl (by decide) rfl

/-- Claim C1 counterexample: the claim as stated is false.  The job "r1" is
delivered, processed to its terminal failed state under `oThrow` (inference
invoked and failed, error-feedback publish failed, so the id is never
marked), then the same event is delivered again after that terminal state
and processed: the inference collaborator runs twice for identifier "r1"
within one process lifetime, not exactly once. -/
theorem dedup_double_invocation_counterexample :
    (hrun jsTriv { allowedPubkey := none } initState
      [HAction.deliver evFix, HAction.process oThrow,
       HAction.deliver evFix, HAction.process oSucc]
      ).inferenceCalls.count "r1" = 2 := by
  rfl

/-- Claim C4: messages this engine built with `createJobResult` match the
kind-6050/own-author startup query filter; seeding the ledger from prior
own-result messages referencing original identifiers a, b, c recovers each
referenced identifier; and a subsequently redelivered request whose id is
the recovered identifier is dropped by the subscription callback without
entering the queue and without any inference invocation (the state is
unchanged). -/
theorem restart_recovery (js : JsPrims) (cfg : HandlerConfig)
    (privateKey : String) (p1 p2 p3 : JobResultPayload) (s0 : HState)
    (since : Nat) (ev : NEvent)
    (hne : p1.requestId ≠ "")
    (hsince : since ≤ js.nowSec)
    (hid : ev.id = p1.requestId) :
    (∀ p ∈ [p1, p2, p3],
      matchesOwnResultFilter (js.getPublicKeyF privateKey) since
        (createJobResult js p privateKey) = true) ∧
    p1.requestId ∈
      (loadProcessedEvents
        ([p1, p2, p3].map (fun p => createJobResult js p privateKey))
        s0).processedEvents ∧
    oneventStep cfg
      (loadProcessedEvents
        ([p1, p2, p3].map (fun p => createJobResult js p privateKey)) s0) ev =
      loadProcessedEvents
        ([p1, p2, p3].map (fun p => createJobResult js p privateKey)) s0 := by
  have hextract : extractRequestId (createJobResult js p1 privateKey) =
      some p1.requestId := by
    simp [extractRequestId, createJobResult, hne]
  have hmem : p1.requestId ∈
      (loadProcessedEvents
        ([p1, p2, p3].map (fun p => createJobResult js p privateKey))
        s0).processedEvents := by
    simp only [loadProcessedEvents, List.map_cons, List.map_nil,
      List.filterMap_cons]
    rw [hextract]
    exact List.mem_append.mpr (Or.inr (List.mem_cons_self _ _))
  refine ⟨?_, hmem, ?_⟩
  · intro p _
    simp [matchesOwnResultFilter, createJobResult, NostrKind.JOB_RESULT,
      hsince]
  · have : ev.id ∈
        (loadProcessedEvents
          ([p1, p2, p3].map (fun p => createJobResult js p privateKey))
          s0).processedEvents := by
      rw [hid]; exact hmem
    simp only [List.map_cons, List.map_nil] at this
    simp [oneventStep, this]

/-- Claim C4 witness: seeding from three concrete own-result messages for
identifiers a, b, c recovers a, and a redelivered request with id a is
dropped with the state unchanged. -/
theorem restart_recovery_witness :
    (∀ p ∈ [resA, resB, resC],
      matchesOwnResultFilter (jsTriv.getPublicKeyF "priv") 0
        (createJobResult jsTriv p "priv") = true) ∧
    "a" ∈
      (loadProcessedEvents
        ([resA, resB, resC].map (fun p => createJobResult jsTriv p "priv"))
        initState).processedEvents ∧
    oneventStep { allowedPubkey := none }
      (loadProcessedEvents
        ([resA, resB, resC].map (fun p => createJobResult jsTriv p "priv"))
        initState) evRedeliverA =
      loadProcessedEvents
        ([resA, resB, resC].map (fun p => createJobResult jsTriv p "priv"))
        initState :=
  restart_recovery jsTriv { allowedPubkey := none } "priv" resA resB resC
    initState 0 evRedeliverA (by decide) (by decide) rfl

theorem capped_forever :
    ∀ (bs : List Bool) (a : Nat), 5 ≤ a →
      ∀ out ∈ (runReconnects a bs).2, out = ReconnectOutcome.capped := by
  intro bs
  induction bs with
  | nil => intro a _ out hout; simp [runReconnects] at hout
  | cons b rest ih =>
    intro a ha out hout
    have hcap : reconnectToRelay a b = (a + 1, ReconnectOutcome.capped) := by
      simp [reconnectToRelay, MAX_RECONNECT_ATTEMPTS]
      omega
    simp only [runReconnects, hcap, List.mem_cons] at hout
    rcases hout with h | h
    · exact h
    · exact ih (a + 1) (by omega) out h

/-- Claim C8, corrected.  The cap, the exponential formula and the
monotonicity hold, but the "with jitter" clause is false (see
`reconnect_no_jitter_counterexample`): `reconnectToRelay` computes its
delay deterministically, with no random factor.  Amended claim: five
consecutive failed calls drive the counter to 5 and every further call
returns without any reconnect attempt (until an external reset of the
counter, after which a call attempts again); the delay scheduled by the
nth consecutive failure, 1 ≤ n ≤ 5, is exactly RECONNECT_DELAY × 2^(n−1)
with no jitter, and successive delays are non-decreasing. -/
theorem reconnect_backoff_cap (n : Nat) (h1 : 1 ≤ n) (h5 : n ≤ 5)
    (a : Nat) (ha : 5 ≤ a) (bs : List Bool) (b : Bool) :
    runReconnects 0 (List.replicate 5 false) =
      (5, [ReconnectOutcome.scheduled 5000, ReconnectOutcome.scheduled 10000,
           ReconnectOutcome.scheduled 20000, ReconnectOutcome.scheduled 40000,
           ReconnectOutcome.scheduled 80000]) ∧
    (reconnectToRelay (n - 1) false).2 =
      ReconnectOutcome.scheduled (RECONNECT_DELAY * 2 ^ (n - 1)) ∧
    RECONNECT_DELAY * 2 ^ (n - 1) ≤ RECONNECT_DELAY * 2 ^ n ∧
    (∀ out ∈ (runReconnects a bs).2, out = ReconnectOutcome.capped) ∧
    (reconnectToRelay 0 b).2 ≠ ReconnectOutcome.capped := by
  refine ⟨?_, ?_, ?_, capped_forever bs a ha, ?_⟩
  · norm_num [runReconnects, reconnectToRelay, RECONNECT_DELAY,
      MAX_RECONNECT_ATTEMPTS, List.replicate]
  · have hn : n - 1 + 1 = n := Nat.sub_add_cancel h1
    simp only [reconnectToRelay, MAX_RECONNECT_ATTEMPTS, hn]
    rw [if_neg (by omega), if_neg (by simp)]
  · have h2 : (2 : ℚ) ^ (n - 1) ≤ 2 ^ n :=
      pow_le_pow_right₀ (by norm_num) (by omega)
    have hpos : (0 : ℚ) < RECONNECT_DELAY := by norm_num [RECONNECT_DELAY]
    nlinarith
  · cases b <;> simp [reconnectToRelay, MAX_RECONNECT_ATTEMPTS]

/-- Claim C8 witness: the amended statement at n = 3, a stuck counter of 7
with two further probe outcomes, and a reset counter. -/
theorem reconnect_backoff_cap_witness :
    runReconnects 0 (List.replicate 5 false) =
      (5, [ReconnectOutcome.scheduled 5000, ReconnectOutcome.scheduled 10000,
           ReconnectOutcome.scheduled 20000, ReconnectOutcome.scheduled 40000,
           ReconnectOutcome.scheduled 80000]) ∧
    (reconnectToRelay (3 - 1) false).2 =
      ReconnectOutcome.scheduled (RECONNECT_DELAY * 2 ^ (3 - 1)) ∧
    RECONNECT_DELAY * 2 ^ (3 - 1) ≤ RECONNECT_DELAY * 2 ^ 3 ∧
    (∀ out ∈ (runReconnects 7 [false, true]).2,
      out = ReconnectOutcome.capped) ∧
    (reconnectToRelay 0 true).2 ≠ ReconnectOutcome.capped :=
  reconnect_backoff_cap 3 (by norm_num) (by norm_num) 7 (by norm_num)
    [false, true] true

/-- Claim C8 counterexample: the "with jitter" clause of the claim is
false.  The code path computes its delay without consulting any random
sample: after the second consecutive failure it always schedules exactly
10000 ms, while the spec's jitter formula (base × 2^(attempt−1) × (1+r),
fresh r ∈ [0,1)) yields 15000 ms at the admissible sample r = 1/2 — so the
scheduled delay does not carry jitter. -/
theorem reconnect_no_jitter_counterexample :
    (reconnectToRelay 1 false).2 = ReconnectOutcome.scheduled 10000 ∧
    specJitteredDelay 5000 2 (1 / 2) = 15000 ∧
    (0 : ℚ) ≤ 1 / 2 ∧ (1 / 2 : ℚ) < 1 ∧ (10000 : ℚ) ≠ 15000 := by
  norm_num [reconnectToRelay, specJitteredDelay, RECONNECT_DELAY,
    MAX_RECONNECT_ATTEMPTS]
